import Mathlib

/-!
Verification of the Loxton Waikerie development-application scraper.

The definitions below are a shallow embedding of `src/scraper.ts` (and of the
compiled variant in `src/unnamed/part_000`): the string cleanup applied to
addresses, the strict `D/MM/YYYY` date parsing and `YYYY-MM-DD` formatting,
the per-heading record extraction of `getResults`, the random-integer helper
`getRandom`, the `monthCount` computation of `main`, and the two sqlite upsert
variants of `insertRow`.
-/

/-- The set of characters treated as whitespace by JavaScript's
`String.prototype.trim` and by the regex class `\s`. -/
def isJsWhitespace (c : Char) : Bool :=
  decide ((9 ≤ c.toNat ∧ c.toNat ≤ 13) ∨ c.toNat = 32 ∨ c.toNat = 160 ∨
    c.toNat = 0x1680 ∨ (0x2000 ≤ c.toNat ∧ c.toNat ≤ 0x200A) ∨
    c.toNat = 0x2028 ∨ c.toNat = 0x2029 ∨ c.toNat = 0x202F ∨
    c.toNat = 0x205F ∨ c.toNat = 0x3000 ∨ c.toNat = 0xFEFF)

/-- JavaScript `String.prototype.trim` on a character list: drop whitespace from both ends. -/
def jsTrimList (l : List Char) : List Char :=
  ((l.dropWhile isJsWhitespace).reverse.dropWhile isJsWhitespace).reverse

/-- JavaScript `String.prototype.trim`. -/
def jsTrim (s : String) : String :=
  ⟨jsTrimList s.toList⟩

/-- Left-to-right scanner implementing `replace(/\s\s+/g, " ")`: `pending`
holds a whitespace character that may still start a run of two or more;
`discarding` is set while consuming the tail of a run that has already been
replaced by a single space. -/
def collapseWsAux : List Char → Option Char → Bool → List Char
  | [], pending, _ => pending.toList
  | c :: rest, pending, discarding =>
    if discarding then
      if isJsWhitespace c then collapseWsAux rest none true
      else c :: collapseWsAux rest none false
    else
      match pending with
      | none =>
        if isJsWhitespace c then collapseWsAux rest (some c) false
        else c :: collapseWsAux rest none false
      | some w =>
        if isJsWhitespace c then ' ' :: collapseWsAux rest none true
        else w :: c :: collapseWsAux rest none false

/-- The `replace(/\s\s+/g, " ")` call on a character list: every maximal run of two or
more whitespace characters is replaced by a single space; lone whitespace
characters are kept as they are. -/
def collapseWsList (l : List Char) : List Char :=
  collapseWsAux l none false

/-- The address cleanup of `getResults`:
`$(headerElement).text().trim().replace(/\s\s+/g, " ")`. -/
def normalizeAddress (s : String) : String :=
  ⟨collapseWsList (jsTrimList s.toList)⟩

/-- A calendar date as year/month/day numbers (month is 1-based). -/
structure SimpleDate where
  year : Nat
  month : Nat
  day : Nat
deriving DecidableEq

def isDigitChar (c : Char) : Bool :=
  decide (48 ≤ c.toNat ∧ c.toNat ≤ 57)

def digitVal (c : Char) : Nat :=
  c.toNat - 48

/-- The token matching performed by moment's strict parse against the format
`D/MM/YYYY`: one or two day digits, a slash, exactly two month digits, a
slash, exactly four year digits, and nothing else.  Returns the raw
`(day, month, year)` numbers on a match. -/
def scanDMY : List Char → Option (Nat × Nat × Nat)
  | [d1, s1, m1, m2, s2, y1, y2, y3, y4] =>
    if isDigitChar d1 && (s1 == '/') && isDigitChar m1 && isDigitChar m2 &&
        (s2 == '/') && isDigitChar y1 && isDigitChar y2 && isDigitChar y3 &&
        isDigitChar y4 then
      some (digitVal d1, 10 * digitVal m1 + digitVal m2,
        1000 * digitVal y1 + 100 * digitVal y2 + 10 * digitVal y3 + digitVal y4)
    else
      none
  | [d1, d2, s1, m1, m2, s2, y1, y2, y3, y4] =>
    if isDigitChar d1 && isDigitChar d2 && (s1 == '/') && isDigitChar m1 &&
        isDigitChar m2 && (s2 == '/') && isDigitChar y1 && isDigitChar y2 &&
        isDigitChar y3 && isDigitChar y4 then
      some (10 * digitVal d1 + digitVal d2, 10 * digitVal m1 + digitVal m2,
        1000 * digitVal y1 + 100 * digitVal y2 + 10 * digitVal y3 + digitVal y4)
    else
      none
  | _ => none

def isLeapYear (y : Nat) : Bool :=
  decide ((y % 4 = 0 ∧ y % 100 ≠ 0) ∨ y % 400 = 0)

def daysInMonth (y m : Nat) : Nat :=
  if m = 2 then (if isLeapYear y then 29 else 28)
  else if m = 4 ∨ m = 6 ∨ m = 9 ∨ m = 11 then 30
  else 31

/-- moment's overflow check: the month must be 1..12 and the day must lie
within the month's length (leap years included). -/
def isValidYMD (y m d : Nat) : Bool :=
  decide (1 ≤ m ∧ m ≤ 12 ∧ 1 ≤ d ∧ d ≤ daysInMonth y m)

/-- The call `moment(value, "D/MM/YYYY", true)`: strict parse against the fixed
pattern; `none` is the invalid sentinel (`moment.invalid()` /
`isValid() === false`). -/
def parseDMY (s : String) : Option SimpleDate :=
  match scanDMY s.toList with
  | some (dd, mm, yy) => if isValidYMD yy mm dd then some ⟨yy, mm, dd⟩ else none
  | none => none

/-- Modelled from the spec: a string exactly matching the pattern `D/MM/YYYY`
or `DD/MM/YYYY` — a one- or two-digit day, a slash, a two-digit month, a
slash and a four-digit year, with no other characters.  This is the spec's
purely syntactic reading of "matching the pattern", used to compare the
spec's words with the code's matcher `scanDMY`. -/
def specMatchesDMYList : List Char → Bool
  | [d1, s1, m1, m2, s2, y1, y2, y3, y4] =>
    isDigitChar d1 && (s1 == '/') && isDigitChar m1 && isDigitChar m2 &&
      (s2 == '/') && isDigitChar y1 && isDigitChar y2 && isDigitChar y3 &&
      isDigitChar y4
  | [d1, d2, s1, m1, m2, s2, y1, y2, y3, y4] =>
    isDigitChar d1 && isDigitChar d2 && (s1 == '/') && isDigitChar m1 &&
      isDigitChar m2 && (s2 == '/') && isDigitChar y1 && isDigitChar y2 &&
      isDigitChar y3 && isDigitChar y4
  | _ => false

/-- Modelled from the spec: pattern match on a string, see `specMatchesDMYList`. -/
def specMatchesDMYPattern (s : String) : Bool :=
  specMatchesDMYList s.toList

def padTwo (n : Nat) : String :=
  if n < 10 then "0" ++ toString n else toString n

def padFour (n : Nat) : String :=
  if n < 10 then "000" ++ toString n
  else if n < 100 then "00" ++ toString n
  else if n < 1000 then "0" ++ toString n
  else toString n

/-- The ISO rendering `YYYY-MM-DD` of a year/month/day triple. -/
def isoString (y m d : Nat) : String :=
  padFour y ++ "-" ++ padTwo m ++ "-" ++ padTwo d

/-- moment's `format("YYYY-MM-DD")` on a valid date. -/
def formatYMD (t : SimpleDate) : String :=
  isoString t.year t.month t.day

/-- The expression `receivedDate.isValid() ? receivedDate.format("YYYY-MM-DD") : ""`. -/
def renderReceivedDate (o : Option SimpleDate) : String :=
  match o with
  | some t => formatYMD t
  | none => ""

/-- One `p.rowDataOnly` element: the concatenated text of its `span.key`
children and of its `span.inputField` children, before trimming. -/
structure Paragraph where
  key : String
  value : String

/-- One `h4.non_table_headers` element together with the `p.rowDataOnly`
elements of its immediately following `div` sibling (when that sibling
exists and is a `div`). -/
structure HeadingBlock where
  heading : String
  nextDiv : Option (List Paragraph)
deriving Inhabited

/-- One record pushed onto `developmentApplications` by `getResults`
(the `scraper.ts` variant, which has no `commentUrl`). -/
structure DevelopmentApplication where
  applicationNumber : String
  address : String
  description : String
  informationUrl : String
  scrapeDate : String
  receivedDate : String
deriving DecidableEq, Inhabited

def DevelopmentApplicationMainUrl : String :=
  "https://eservices.loxtonwaikerie.sa.gov.au/eservice/daEnquiryInit.do?nodeNum=2811"

def NoDescriptionPlaceholder : String :=
  "No Description Provided"

/-- The mutable variables of the per-heading loop of `getResults`. -/
structure RowState where
  applicationNumber : String
  description : String
  receivedDate : Option SimpleDate
deriving DecidableEq

def initialRowState : RowState :=
  { applicationNumber := "", description := "", receivedDate := none }

/-- The body of the inner row loop of `getResults`: trim the key and value
spans and assign the matching variable; unrecognized keys are ignored. -/
def processRow (st : RowState) (p : Paragraph) : RowState :=
  let key := jsTrim p.key
  let value := jsTrim p.value
  if key = "Type of Work" then { st with description := value }
  else if key = "Application No." then { st with applicationNumber := value }
  else if key = "Date Lodged" then { st with receivedDate := parseDMY value }
  else st

/-- Run the inner row loop from a given state over a list of rows. -/
def processRows (st : RowState) (ps : List Paragraph) : RowState :=
  ps.foldl processRow st

/-- The rows visible under one heading: the paragraphs of the following div,
or nothing when no following div exists. -/
def blockRows (b : HeadingBlock) : List Paragraph :=
  b.nextDiv.getD []

/-- The state accumulated for one heading block. -/
def blockState (b : HeadingBlock) : RowState :=
  processRows initialRowState (blockRows b)

/-- One iteration of the heading loop of `getResults`: returns the record
pushed (if any) and whether the "Ignoring development application ...
because the address is blank." warning was logged. -/
def processBlock (scrapeDate : String) (b : HeadingBlock) :
    Option DevelopmentApplication × Bool :=
  let address := normalizeAddress b.heading
  let st := blockState b
  if st.applicationNumber ≠ "" ∧ address = "" then
    (none, true)
  else if st.applicationNumber ≠ "" ∧ address ≠ "" then
    (some {
      applicationNumber := st.applicationNumber,
      address := address,
      description :=
        if st.description = "" then NoDescriptionPlaceholder else st.description,
      informationUrl := DevelopmentApplicationMainUrl,
      scrapeDate := scrapeDate,
      receivedDate := renderReceivedDate st.receivedDate }, false)
  else
    (none, false)

/-- The parsing stage of `getResults`: the list of records pushed onto
`developmentApplications`, one heading block at a time, in order.
`scrapeDate` is today's date as formatted by `moment().format("YYYY-MM-DD")`. -/
def getResultsParse (scrapeDate : String) (blocks : List HeadingBlock) :
    List DevelopmentApplication :=
  blocks.filterMap (fun b => (processBlock scrapeDate b).1)

/-- The function `getRandom(minimum, maximum)` of `scraper.ts`, with the value of
`Math.random()` made an explicit argument `r`:
`Math.floor(r * (Math.floor(maximum) - Math.ceil(minimum))) + Math.ceil(minimum)`. -/
def getRandom (r minimum maximum : ℚ) : ℤ :=
  ⌊r * ((⌊maximum⌋ : ℚ) - (⌈minimum⌉ : ℚ))⌋ + ⌈minimum⌉

/-- The `monthCount` computation of `main`:
`moment().year() * 12 + moment().month() - (2012 * 12 + 1)`, where
`moment().month()` is the zero-based month index of the current date. -/
def monthCount (year monthIndex : ℤ) : ℤ :=
  year * 12 + monthIndex - (2012 * 12 + 1)

/-- The assignment `randomMonth = getRandom(1, monthCount + 1)` of `main`. -/
def randomMonth (r : ℚ) (mc : ℤ) : ℤ :=
  getRandom r 1 ((mc : ℚ) + 1)

/-- A row of the `[data]` table in the `scraper.ts` variant (six columns,
`council_reference` is the primary key). -/
structure StoredRow where
  council_reference : String
  address : String
  description : String
  info_url : String
  date_scraped : String
  date_received : String
deriving DecidableEq

/-- A row of the `[data]` table in the `src/unnamed/part_000` variant
(seven columns including `comment_url`). -/
structure StoredRowC where
  council_reference : String
  address : String
  description : String
  info_url : String
  comment_url : String
  date_scraped : String
  date_received : String
deriving DecidableEq

/-- Primary-key lookup in the six-column table. -/
def findByRef (db : List StoredRow) (ref : String) : Option StoredRow :=
  db.find? (fun row => row.council_reference == ref)

/-- Primary-key lookup in the seven-column table. -/
def findByRefC (db : List StoredRowC) (ref : String) : Option StoredRowC :=
  db.find? (fun row => row.council_reference == ref)

/-- The statement `insert or replace into [data]` (the `scraper.ts` `insertRow`): on a
primary-key conflict the existing row is replaced by the new values,
otherwise the row is appended. -/
def insertOrReplace (db : List StoredRow) (r : StoredRow) : List StoredRow :=
  if db.any (fun row => row.council_reference == r.council_reference) then
    db.map (fun row =>
      if row.council_reference == r.council_reference then r else row)
  else
    db ++ [r]

/-- The statement `insert or ignore into [data]` (the `part_000` `insertRow`): on a
primary-key conflict nothing changes and `this.changes` is `0` (reported as
skipped, the boolean is `false`); otherwise the row is appended and the
boolean is `true` (reported as inserted). -/
def insertOrIgnore (db : List StoredRowC) (r : StoredRowC) :
    List StoredRowC × Bool :=
  if db.any (fun row => row.council_reference == r.council_reference) then
    (db, false)
  else
    (db ++ [r], true)

/-! ### Whitespace facts used by the address claims -/

/-- The string has no two adjacent whitespace characters. -/
def noWsRun : List Char → Bool
  | [] => true
  | [_] => true
  | a :: b :: rest => (!(isJsWhitespace a && isJsWhitespace b)) && noWsRun (b :: rest)

/-- No run of two or more whitespace characters anywhere in the string. -/
def noDoubleWhitespace (s : String) : Prop :=
  noWsRun s.toList = true

/-- Neither the first nor the last character of the string is whitespace. -/
def noEdgeWhitespace (s : String) : Prop :=
  s.toList.head?.all (fun c => !isJsWhitespace c) = true ∧
  s.toList.getLast?.all (fun c => !isJsWhitespace c) = true

theorem head_all_not_ws {l : List Char}
    (h : l.head?.all (fun c => !isJsWhitespace c) = true) :
    ∀ d, l.head? = some d → isJsWhitespace d = false := by
  intro d hd
  rw [hd] at h
  simpa using h

theorem noWsRun_cons (c : Char) (l : List Char)
    (h1 : noWsRun l = true)
    (h2 : isJsWhitespace c = false ∨ (∀ d, l.head? = some d → isJsWhitespace d = false)) :
    noWsRun (c :: l) = true := by
  cases l with
  | nil => rfl
  | cons d t =>
    simp only [noWsRun, Bool.and_eq_true, Bool.not_eq_true', Bool.and_eq_false_iff]
    refine ⟨?_, h1⟩
    rcases h2 with h | h
    · exact Or.inl h
    · exact Or.inr (h d rfl)

theorem collapseWsAux_props (l : List Char) :
    noWsRun (collapseWsAux l none false) = true ∧
    noWsRun (collapseWsAux l none true) = true ∧
    (collapseWsAux l none true).head?.all (fun c => !isJsWhitespace c) = true ∧
    (∀ w, isJsWhitespace w = true → noWsRun (collapseWsAux l (some w) false) = true) := by
  induction l with
  | nil =>
    refine ⟨rfl, rfl, rfl, ?_⟩
    intro w _
    rfl
  | cons c rest ih =>
    obtain ⟨ih1, ih2, ih3, ih4⟩ := ih
    by_cases hc : isJsWhitespace c = true
    · refine ⟨?_, ?_, ?_, ?_⟩
      · simp only [collapseWsAux, if_pos hc, Bool.false_eq_true, if_false]
        exact ih4 c hc
      · simp only [collapseWsAux, if_pos hc, if_true]
        exact ih2
      · simp only [collapseWsAux, if_pos hc, if_true]
        exact ih3
      · intro w _
        simp only [collapseWsAux, if_pos hc, Bool.false_eq_true, if_false]
        refine noWsRun_cons _ _ ih2 (Or.inr (head_all_not_ws ih3))
    · rw [Bool.not_eq_true] at hc
      refine ⟨?_, ?_, ?_, ?_⟩
      · simp only [collapseWsAux, hc, Bool.false_eq_true, if_false]
        exact noWsRun_cons _ _ ih1 (Or.inl hc)
      · simp only [collapseWsAux, hc, Bool.false_eq_true, if_false, if_true]
        exact noWsRun_cons _ _ ih1 (Or.inl hc)
      · simp only [collapseWsAux, hc, Bool.false_eq_true, if_false, if_true]
        simp [hc]
      · intro w _
        simp only [collapseWsAux, hc, Bool.false_eq_true, if_false]
        refine noWsRun_cons _ _ ?_ (Or.inr ?_)
        · exact noWsRun_cons _ _ ih1 (Or.inl hc)
        · intro d hd
          simp only [List.head?_cons, Option.some.injEq] at hd
          rw [← hd]
          exact hc

theorem getLast?_cons_of_getLast? (a : Char) {l : List Char} {c : Char}
    (h : l.getLast? = some c) : (a :: l).getLast? = some c := by
  cases l with
  | nil => simp at h
  | cons b t => rw [List.getLast?_cons_cons]; exact h

theorem jsTrimList_head (l : List Char) :
    (jsTrimList l).head?.all (fun c => !isJsWhitespace c) = true := by
  unfold jsTrimList
  rw [List.head?_reverse]
  rcases hk : ((l.dropWhile isJsWhitespace).reverse.dropWhile isJsWhitespace) with _ | ⟨k, ks⟩
  · simp
  · obtain ⟨t, ht⟩ := List.dropWhile_suffix (l := (l.dropWhile isJsWhitespace).reverse)
      isJsWhitespace
    have hne : (l.dropWhile isJsWhitespace).reverse.dropWhile isJsWhitespace ≠ [] := by
      rw [hk]; simp
    have h2 := List.getLast?_append_of_ne_nil t hne
    rw [← hk, ← h2, ht, List.getLast?_reverse]
    rcases hm : (l.dropWhile isJsWhitespace).head? with _ | m
    · simp
    · have := List.head?_dropWhile_not isJsWhitespace l
      rw [hm] at this
      simpa using this

theorem jsTrimList_getLast (l : List Char) :
    (jsTrimList l).getLast?.all (fun c => !isJsWhitespace c) = true := by
  unfold jsTrimList
  rw [List.getLast?_reverse]
  rcases hm : ((l.dropWhile isJsWhitespace).reverse.dropWhile isJsWhitespace).head? with _ | m
  · simp
  · have := List.head?_dropWhile_not isJsWhitespace (l.dropWhile isJsWhitespace).reverse
    rw [hm] at this
    simpa using this

theorem collapseWsList_head (l : List Char)
    (h : l.head?.all (fun c => !isJsWhitespace c) = true) :
    (collapseWsList l).head? = l.head? := by
  cases l with
  | nil => rfl
  | cons c rest =>
    simp only [List.head?_cons, Option.all_some] at h
    rw [Bool.not_eq_true'] at h
    simp only [collapseWsList, collapseWsAux, h, Bool.false_eq_true, if_false, List.head?_cons]

theorem collapseWsAux_getLast (l : List Char) :
    ∀ (pending : Option Char) (disc : Bool) (c : Char),
    l.getLast? = some c → isJsWhitespace c = false →
    (collapseWsAux l pending disc).getLast? = some c := by
  induction l with
  | nil => intro pending disc c h _; simp at h
  | cons a rest ih =>
    intro pending disc c h hc
    cases rest with
    | nil =>
      simp only [List.getLast?_singleton, Option.some.injEq] at h
      subst h
      cases disc with
      | true => simp [collapseWsAux, hc]
      | false =>
        cases pending with
        | none => simp [collapseWsAux, hc]
        | some w => simp [collapseWsAux, hc]
    | cons b t =>
      rw [List.getLast?_cons_cons] at h
      cases disc with
      | true =>
        by_cases ha : isJsWhitespace a = true
        · simp only [collapseWsAux, ha, if_true]
          exact ih none true c h hc
        · rw [Bool.not_eq_true] at ha
          simp only [collapseWsAux, ha, Bool.false_eq_true, if_false]
          exact getLast?_cons_of_getLast? a (ih none false c h hc)
      | false =>
        cases pending with
        | none =>
          by_cases ha : isJsWhitespace a = true
          · simp only [collapseWsAux, ha, if_true]
            exact ih (some a) false c h hc
          · rw [Bool.not_eq_true] at ha
            simp only [collapseWsAux, ha, Bool.false_eq_true, if_false]
            exact getLast?_cons_of_getLast? a (ih none false c h hc)
        | some w =>
          by_cases ha : isJsWhitespace a = true
          · simp only [collapseWsAux, ha, if_true]
            exact getLast?_cons_of_getLast? _ (ih none true c h hc)
          · rw [Bool.not_eq_true] at ha
            simp only [collapseWsAux, ha, Bool.false_eq_true, if_false]
            exact getLast?_cons_of_getLast? w (getLast?_cons_of_getLast? a (ih none false c h hc))

theorem normalizeAddress_clean (s : String) :
    noDoubleWhitespace (normalizeAddress s) ∧ noEdgeWhitespace (normalizeAddress s) := by
  have htoList : (normalizeAddress s).toList = collapseWsList (jsTrimList s.toList) := rfl
  refine ⟨?_, ?_, ?_⟩
  · unfold noDoubleWhitespace
    rw [htoList]
    exact (collapseWsAux_props (jsTrimList s.toList)).1
  · rw [htoList, collapseWsList_head _ (jsTrimList_head s.toList)]
    exact jsTrimList_head s.toList
  · rw [htoList]
    rcases hlast : (jsTrimList s.toList).getLast? with _ | c
    · rw [List.getLast?_eq_none_iff] at hlast
      rw [hlast]
      rfl
    · have hws : isJsWhitespace c = false := by
        have := jsTrimList_getLast s.toList
        rw [hlast] at this
        simpa using this
      unfold collapseWsList
      rw [collapseWsAux_getLast (jsTrimList s.toList) none false c hlast hws]
      simp [hws]

/-! ### Facts about `getRandom` -/

theorem getRandom_int_bounds (m M : ℤ) (r : ℚ) (h : m < M) (h0 : 0 ≤ r) (h1 : r < 1) :
    m ≤ getRandom r (m : ℚ) (M : ℚ) ∧ getRandom r (m : ℚ) (M : ℚ) < M := by
  unfold getRandom
  rw [Int.floor_intCast, Int.ceil_intCast]
  have hn : (0 : ℚ) < (M : ℚ) - (m : ℚ) := by
    rw [sub_pos]
    exact_mod_cast h
  constructor
  · have hf : (0 : ℤ) ≤ ⌊r * ((M : ℚ) - (m : ℚ))⌋ :=
      Int.floor_nonneg.mpr (mul_nonneg h0 hn.le)
    omega
  · have hlt : r * ((M : ℚ) - (m : ℚ)) < ((M - m : ℤ) : ℚ) := by
      push_cast
      calc r * ((M : ℚ) - m) < 1 * ((M : ℚ) - m) := mul_lt_mul_of_pos_right h1 hn
        _ = (M : ℚ) - m := one_mul _
    have hf : ⌊r * ((M : ℚ) - (m : ℚ))⌋ < M - m := Int.floor_lt.mpr hlt
    omega

theorem getRandom_int_eq_iff (m M k : ℤ) (r : ℚ) (h : m < M) :
    getRandom r (m : ℚ) (M : ℚ) = k ↔
      ((k : ℚ) - m) / ((M : ℚ) - m) ≤ r ∧ r < ((k : ℚ) - m + 1) / ((M : ℚ) - m) := by
  have hn : (0 : ℚ) < (M : ℚ) - (m : ℚ) := by
    rw [sub_pos]
    exact_mod_cast h
  unfold getRandom
  rw [Int.floor_intCast, Int.ceil_intCast]
  have hsplit : (⌊r * ((M : ℚ) - (m : ℚ))⌋ + m = k) ↔
      (⌊r * ((M : ℚ) - (m : ℚ))⌋ = k - m) := by omega
  rw [hsplit, Int.floor_eq_iff, div_le_iff₀ hn, lt_div_iff₀ hn]
  push_cast
  constructor
  · rintro ⟨a, b⟩
    exact ⟨by linarith [mul_comm r ((M : ℚ) - (m : ℚ))],
      by linarith [mul_comm r ((M : ℚ) - (m : ℚ))]⟩
  · rintro ⟨a, b⟩
    exact ⟨by linarith [mul_comm r ((M : ℚ) - (m : ℚ))],
      by linarith [mul_comm r ((M : ℚ) - (m : ℚ))]⟩

/-! ### The spec's pattern and the code's matcher agree syntactically -/

theorem specMatchesDMYList_eq_scan (l : List Char) :
    specMatchesDMYList l = (scanDMY l).isSome := by
  rcases l with _ | ⟨c1, _ | ⟨c2, _ | ⟨c3, _ | ⟨c4, _ | ⟨c5, _ | ⟨c6, _ | ⟨c7, _ |
    ⟨c8, _ | ⟨c9, _ | ⟨c10, _ | ⟨c11, rest⟩⟩⟩⟩⟩⟩⟩⟩⟩⟩⟩
  all_goals first
    | rfl
    | (simp only [specMatchesDMYList, scanDMY]
       split <;> simp_all)

/-! ### Inversion of one heading-block iteration -/

theorem processBlock_some {d : String} {b : HeadingBlock} {app : DevelopmentApplication}
    (h : (processBlock d b).1 = some app) :
    app.applicationNumber = (blockState b).applicationNumber ∧
    app.address = normalizeAddress b.heading ∧
    app.address ≠ "" ∧
    app.applicationNumber ≠ "" ∧
    app.description = (if (blockState b).description = "" then NoDescriptionPlaceholder
      else (blockState b).description) ∧
    app.informationUrl = DevelopmentApplicationMainUrl ∧
    app.scrapeDate = d ∧
    app.receivedDate = renderReceivedDate (blockState b).receivedDate := by
  simp only [processBlock] at h
  split at h
  · exact absurd h (by simp)
  · rename_i hcond
    split at h
    · rename_i hcond2
      rw [Option.some_inj] at h
      subst h
      refine ⟨rfl, rfl, hcond2.2, hcond2.1, rfl, rfl, rfl, rfl⟩
    · exact absurd h (by simp)

/-! ### Claim theorems -/

/-- C1: for an HTML document with exactly one heading "12 Smith St, Loxton"
whose following container holds the three rows Type of Work → "Shed",
Application No. → "2019/0045" and Date Lodged → "3/04/2019", the parsing
stage of `getResults` yields exactly one record with
address "12 Smith St, Loxton", description "Shed", reference number
"2019/0045" and received date "2019-04-03". -/
theorem extraction_fixture_single_record (d : String) :
    getResultsParse d
      [{ heading := "12 Smith St, Loxton",
         nextDiv := some [⟨"Type of Work", "Shed"⟩, ⟨"Application No.", "2019/0045"⟩,
           ⟨"Date Lodged", "3/04/2019"⟩] }] =
      [{ applicationNumber := "2019/0045", address := "12 Smith St, Loxton",
         description := "Shed", informationUrl := DevelopmentApplicationMainUrl,
         scrapeDate := d, receivedDate := "2019-04-03" }] :=
  rfl

/-- C8: a malformed Date Lodged value ("not-a-date") does not abort
extraction: the record is still emitted with an empty received date and all
other fields unchanged, and a subsequent heading is still processed. -/
theorem extraction_fixture_malformed_date (d : String) :
    getResultsParse d
      [{ heading := "12 Smith St, Loxton",
         nextDiv := some [⟨"Type of Work", "Shed"⟩, ⟨"Application No.", "2019/0045"⟩,
           ⟨"Date Lodged", "not-a-date"⟩] },
       { heading := "5 River Rd, Waikerie",
         nextDiv := some [⟨"Application No.", "2019/0099"⟩] }] =
      [{ applicationNumber := "2019/0045", address := "12 Smith St, Loxton",
         description := "Shed", informationUrl := DevelopmentApplicationMainUrl,
         scrapeDate := d, receivedDate := "" },
       { applicationNumber := "2019/0099", address := "5 River Rd, Waikerie",
         description := NoDescriptionPlaceholder,
         informationUrl := DevelopmentApplicationMainUrl,
         scrapeDate := d, receivedDate := "" }] :=
  rfl

/-- C9: within one heading, repeated occurrences of a recognized key label
overwrite the previously accumulated value, so the last row in document
order wins — including a later invalid Date Lodged value overwriting an
earlier valid one. -/
theorem last_row_wins (st : RowState) (rows : List Paragraph) (p : Paragraph) :
    (jsTrim p.key = "Type of Work" →
      (processRows st (rows ++ [p])).description = jsTrim p.value) ∧
    (jsTrim p.key = "Application No." →
      (processRows st (rows ++ [p])).applicationNumber = jsTrim p.value) ∧
    (jsTrim p.key = "Date Lodged" →
      (processRows st (rows ++ [p])).receivedDate = parseDMY (jsTrim p.value)) := by
  have hfold : processRows st (rows ++ [p]) = processRow (processRows st rows) p := by
    unfold processRows
    rw [List.foldl_append]
    rfl
  refine ⟨?_, ?_, ?_⟩ <;> intro hk <;> rw [hfold] <;> simp [processRow, hk]

/-- C9 witness: a valid lodged date "3/04/2019" is overwritten by the later
invalid value "not-a-date". -/
theorem last_row_wins_witness :
    (processRows initialRowState
      ([⟨"Date Lodged", "3/04/2019"⟩] ++ [⟨"Date Lodged", "not-a-date"⟩])).receivedDate =
      parseDMY (jsTrim "not-a-date") :=
  (last_row_wins initialRowState [⟨"Date Lodged", "3/04/2019"⟩]
    ⟨"Date Lodged", "not-a-date"⟩).2.2 (by decide)

/-- C4: a record is emitted for a heading block iff the captured reference
number and the normalized address are both non-empty; a non-empty reference
with an empty address is skipped with the warning log; a never-captured
reference yields no record and no warning; every emitted record has a
non-empty reference number and address. -/
theorem acceptance_policy (d : String) (b : HeadingBlock)
    (blocks : List HeadingBlock) (app : DevelopmentApplication) :
    ((processBlock d b).1.isSome ↔
      (blockState b).applicationNumber ≠ "" ∧ normalizeAddress b.heading ≠ "") ∧
    ((blockState b).applicationNumber ≠ "" → normalizeAddress b.heading = "" →
      (processBlock d b).1 = none ∧ (processBlock d b).2 = true) ∧
    ((blockState b).applicationNumber = "" →
      (processBlock d b).1 = none ∧ (processBlock d b).2 = false) ∧
    (app ∈ getResultsParse d blocks →
      app.applicationNumber ≠ "" ∧ app.address ≠ "") := by
  refine ⟨?_, ?_, ?_, ?_⟩
  · simp only [processBlock]
    constructor
    · intro hsome
      split at hsome
      · simp at hsome
      · rename_i hcond
        split at hsome
        · rename_i hcond2
          exact ⟨hcond2.1, hcond2.2⟩
        · simp at hsome
    · intro ⟨h1, h2⟩
      rw [if_neg (by tauto), if_pos ⟨h1, h2⟩]
      simp
  · intro h1 h2
    simp only [processBlock]
    rw [if_pos ⟨h1, h2⟩]
    exact ⟨rfl, rfl⟩
  · intro h1
    simp only [processBlock]
    rw [if_neg (by tauto), if_neg (by tauto)]
    exact ⟨rfl, rfl⟩
  · intro hmem
    obtain ⟨bb, _, hbb⟩ := List.mem_filterMap.mp hmem
    obtain ⟨_, _, haddr, happ, _⟩ := processBlock_some hbb
    exact ⟨happ, haddr⟩

/-- C4 witness: a block with reference "2019/0001" but whitespace-only
heading is skipped with the warning; a block with no Application No. row is
skipped silently. -/
theorem acceptance_policy_witness :
    ((processBlock "2019-04-03"
        { heading := "   ", nextDiv := some [⟨"Application No.", "2019/0001"⟩] }).1 = none ∧
      (processBlock "2019-04-03"
        { heading := "   ", nextDiv := some [⟨"Application No.", "2019/0001"⟩] }).2 = true) ∧
    ((processBlock "2019-04-03"
        { heading := "12 Smith St, Loxton", nextDiv := none }).1 = none ∧
      (processBlock "2019-04-03"
        { heading := "12 Smith St, Loxton", nextDiv := none }).2 = false) ∧
    (({ applicationNumber := "2019/0045", address := "12 Smith St, Loxton",
         description := "Shed", informationUrl := DevelopmentApplicationMainUrl,
         scrapeDate := "2019-04-03",
         receivedDate := "2019-04-03" } : DevelopmentApplication).applicationNumber ≠ "" ∧
      ({ applicationNumber := "2019/0045", address := "12 Smith St, Loxton",
          description := "Shed", informationUrl := DevelopmentApplicationMainUrl,
          scrapeDate := "2019-04-03",
          receivedDate := "2019-04-03" } : DevelopmentApplication).address ≠ "") :=
  ⟨(acceptance_policy "2019-04-03"
      { heading := "   ", nextDiv := some [⟨"Application No.", "2019/0001"⟩] } [] default).2.1
      (by decide) (by decide),
   (acceptance_policy "2019-04-03"
      { heading := "12 Smith St, Loxton", nextDiv := none } [] default).2.2.1 (by decide),
   (acceptance_policy "2019-04-03" default
      [{ heading := "12 Smith St, Loxton",
         nextDiv := some [⟨"Type of Work", "Shed"⟩, ⟨"Application No.", "2019/0045"⟩,
           ⟨"Date Lodged", "3/04/2019"⟩] }]
      { applicationNumber := "2019/0045", address := "12 Smith St, Loxton",
        description := "Shed", informationUrl := DevelopmentApplicationMainUrl,
        scrapeDate := "2019-04-03", receivedDate := "2019-04-03" }).2.2.2 (by decide)⟩

/-- C5: address normalization (trim, then collapse each run of two or more
whitespace characters to a single space) leaves no adjacent whitespace pair
and no leading or trailing whitespace, both on arbitrary inputs and on the
address of every emitted record. -/
theorem address_normalization (s : String) (d : String)
    (blocks : List HeadingBlock) (app : DevelopmentApplication) :
    (noDoubleWhitespace (normalizeAddress s) ∧ noEdgeWhitespace (normalizeAddress s)) ∧
    (app ∈ getResultsParse d blocks →
      noDoubleWhitespace app.address ∧ noEdgeWhitespace app.address) := by
  refine ⟨normalizeAddress_clean s, ?_⟩
  intro hmem
  obtain ⟨b, _, hb⟩ := List.mem_filterMap.mp hmem
  obtain ⟨_, haddr, _⟩ := processBlock_some hb
  rw [haddr]
  exact normalizeAddress_clean b.heading

/-- C5 witness: the concrete emitted address "12 Smith St, Loxton" has no
repeated interior whitespace and no surrounding whitespace. -/
theorem address_normalization_witness :
    noDoubleWhitespace "12 Smith St, Loxton" ∧ noEdgeWhitespace "12 Smith St, Loxton" :=
  (address_normalization " x" "2019-04-03"
    [{ heading := " 12  Smith St,   Loxton ",
       nextDiv := some [⟨"Application No.", "2019/0045"⟩] }]
    { applicationNumber := "2019/0045", address := "12 Smith St, Loxton",
      description := NoDescriptionPlaceholder,
      informationUrl := DevelopmentApplicationMainUrl,
      scrapeDate := "2019-04-03", receivedDate := "" }).2 (by decide)

/-- C6: the description of an emitted record is never the empty string; when
no Type of Work row supplied a (non-empty) description, the record carries
the fixed placeholder text instead. -/
theorem description_never_empty (d : String) (b : HeadingBlock)
    (blocks : List HeadingBlock) (app : DevelopmentApplication) :
    ((processBlock d b).1 = some app →
      app.description ≠ "" ∧
      ((blockState b).description = "" → app.description = NoDescriptionPlaceholder)) ∧
    (app ∈ getResultsParse d blocks → app.description ≠ "") := by
  constructor
  · intro h
    obtain ⟨_, _, _, _, hdesc, _⟩ := processBlock_some h
    constructor
    · rw [hdesc]
      split
      · decide
      · rename_i hne
        exact hne
    · intro hempty
      rw [hdesc, if_pos hempty]
  · intro hmem
    obtain ⟨b2, _, hb2⟩ := List.mem_filterMap.mp hmem
    obtain ⟨_, _, _, _, hdesc, _⟩ := processBlock_some hb2
    rw [hdesc]
    split
    · decide
    · rename_i hne
      exact hne

/-- C6 witness: a block with an Application No. row but no Type of Work row
is emitted with the placeholder description, which is non-empty. -/
theorem description_never_empty_witness :
    ({ applicationNumber := "2019/0001", address := "7 Main St", 
       description := NoDescriptionPlaceholder,
       informationUrl := DevelopmentApplicationMainUrl,
       scrapeDate := "2019-04-03",
       receivedDate := "" } : DevelopmentApplication).description ≠ "" ∧
    ({ applicationNumber := "2019/0001", address := "7 Main St", 
        description := NoDescriptionPlaceholder,
        informationUrl := DevelopmentApplicationMainUrl,
        scrapeDate := "2019-04-03",
        receivedDate := "" } : DevelopmentApplication).description = NoDescriptionPlaceholder :=
  ⟨((description_never_empty "2019-04-03"
      { heading := "7 Main St", nextDiv := some [⟨"Application No.", "2019/0001"⟩] } []
      { applicationNumber := "2019/0001", address := "7 Main St",
        description := NoDescriptionPlaceholder,
        informationUrl := DevelopmentApplicationMainUrl,
        scrapeDate := "2019-04-03", receivedDate := "" }).1 (by decide)).1,
   ((description_never_empty "2019-04-03"
      { heading := "7 Main St", nextDiv := some [⟨"Application No.", "2019/0001"⟩] } []
      { applicationNumber := "2019/0001", address := "7 Main St",
        description := NoDescriptionPlaceholder,
        informationUrl := DevelopmentApplicationMainUrl,
        scrapeDate := "2019-04-03", receivedDate := "" }).1 (by decide)).2 (by decide)⟩

/-- C3 counterexample: "31/02/2019" exactly matches the syntactic pattern
`DD/MM/YYYY`, yet strict parsing yields the invalid sentinel (February has no
31st day) and the rendered received date is the empty string — refuting the
claim that parsing succeeds for every string matching the pattern. -/
theorem date_parse_counterexample :
    specMatchesDMYPattern "31/02/2019" = true ∧
    parseDMY "31/02/2019" = none ∧
    renderReceivedDate (parseDMY "31/02/2019") = "" := by
  refine ⟨by decide, by decide, by decide⟩

/-- C3 (amended): the spec's syntactic pattern agrees with the code's
matcher; for a string matching the pattern AND denoting a valid calendar
date, strict parsing succeeds with exactly that date and reformatting yields
its `YYYY-MM-DD` rendering; for every other string (pattern mismatch, or a
day/month combination that is not a real calendar date) parsing yields the
invalid sentinel and the rendered received date is the empty string; parsing
is a total function and never throws. -/
theorem date_parse_roundtrip (s : String) :
    (specMatchesDMYPattern s = (scanDMY s.toList).isSome) ∧
    (∀ dd mm yy : Nat, scanDMY s.toList = some (dd, mm, yy) →
      (isValidYMD yy mm dd = true →
        parseDMY s = some ⟨yy, mm, dd⟩ ∧
        renderReceivedDate (parseDMY s) = isoString yy mm dd) ∧
      (isValidYMD yy mm dd = false →
        parseDMY s = none ∧ renderReceivedDate (parseDMY s) = "")) ∧
    (scanDMY s.toList = none →
      parseDMY s = none ∧ renderReceivedDate (parseDMY s) = "") := by
  refine ⟨specMatchesDMYList_eq_scan s.toList, ?_, ?_⟩
  · intro dd mm yy hscan
    constructor
    · intro hvalid
      have hp : parseDMY s = some ⟨yy, mm, dd⟩ := by
        unfold parseDMY
        rw [hscan]
        simp [hvalid]
      exact ⟨hp, by rw [hp]; rfl⟩
    · intro hinvalid
      have hp : parseDMY s = none := by
        unfold parseDMY
        rw [hscan]
        simp [hinvalid]
      exact ⟨hp, by rw [hp]; rfl⟩
  · intro hscan
    have hp : parseDMY s = none := by
      unfold parseDMY
      rw [hscan]
    exact ⟨hp, by rw [hp]; rfl⟩

/-- C3 witness: "3/04/2019" matches with day 3, month 4, year 2019, is a
valid calendar date, parses, and renders as "2019-04-03". -/
theorem date_parse_roundtrip_witness :
    parseDMY "3/04/2019" = some ⟨2019, 4, 3⟩ ∧
    renderReceivedDate (parseDMY "3/04/2019") = isoString 2019 4 3 :=
  ((date_parse_roundtrip "3/04/2019").2.1 3 4 2019 (by decide)).1 (by decide)

/-- C2 counterexample: the `monthCount` formula of `main`, evaluated at
April 2019 (zero-based month index 3), gives
(2019 × 12 + 3) − (2012 × 12 + 1) = 86, not 74 as the claim computes. -/
theorem monthCount_counterexample :
    monthCount 2019 3 = 86 ∧ monthCount 2019 3 ≠ 74 := by
  refine ⟨by decide, by decide⟩

/-- C2 (amended): at April 2019 the `monthCount` computation yields 86;
`randomMonth` then lands in [1, 86], and for a uniformly distributed random
source each value k in [1, 86] is hit exactly on the subinterval
[(k−1)/86, k/86) of [0, 1), which has the same length 1/86 for every k
(uniformity of the drawn month). -/
theorem monthCount_random_month (r : ℚ) (h0 : 0 ≤ r) (h1 : r < 1) (k : ℤ)
    (_hk1 : 1 ≤ k) (_hk2 : k ≤ 86) :
    monthCount 2019 3 = 86 ∧
    (1 ≤ randomMonth r (monthCount 2019 3) ∧ randomMonth r (monthCount 2019 3) ≤ 86) ∧
    (randomMonth r (monthCount 2019 3) = k ↔
      ((k : ℚ) - 1) / 86 ≤ r ∧ r < (k : ℚ) / 86) := by
  have hmc : monthCount 2019 3 = (86 : ℤ) := by decide
  have hrm : randomMonth r (monthCount 2019 3) =
      getRandom r ((1 : ℤ) : ℚ) ((87 : ℤ) : ℚ) := by
    rw [hmc]
    unfold randomMonth
    norm_num
  have hb := getRandom_int_bounds 1 87 r (by norm_num) h0 h1
  have he := getRandom_int_eq_iff 1 87 k r (by norm_num)
  refine ⟨hmc, ?_, ?_⟩
  · rw [hrm]
    exact ⟨hb.1, by omega⟩
  · rw [hrm, he]
    norm_num

/-- C2 witness: at the random source value 1/2, the drawn month is in
[1, 86] and equals 44 exactly because 1/2 lies in [43/86, 44/86). -/
theorem monthCount_random_month_witness :
    monthCount 2019 3 = 86 ∧
    (1 ≤ randomMonth (1/2) (monthCount 2019 3) ∧
      randomMonth (1/2) (monthCount 2019 3) ≤ 86) ∧
    (randomMonth (1/2) (monthCount 2019 3) = 44 ↔
      (((44 : ℤ) : ℚ) - 1) / 86 ≤ (1/2 : ℚ) ∧ (1/2 : ℚ) < ((44 : ℤ) : ℚ) / 86) :=
  monthCount_random_month (1/2) (by norm_num) (by norm_num) 44 (by norm_num) (by norm_num)

/-- C7: with conflicting reference numbers, the ignore-on-conflict variant
(`insert or ignore`, `part_000`) leaves the first-inserted row unchanged and
reports the second insert as skipped (`this.changes = 0`), while the
replace-on-conflict variant (`insert or replace`, `scraper.ts`) ends with
exactly the second row's values. -/
theorem upsert_conflict_policy (r1 r2 : StoredRow) (s1 s2 : StoredRowC)
    (hr : r2.council_reference = r1.council_reference)
    (hs : s2.council_reference = s1.council_reference) :
    insertOrReplace (insertOrReplace [] r1) r2 = [r2] ∧
    (insertOrIgnore [] s1).1 = [s1] ∧
    (insertOrIgnore (insertOrIgnore [] s1).1 s2).1 = [s1] ∧
    (insertOrIgnore (insertOrIgnore [] s1).1 s2).2 = false := by
  have h2 : insertOrIgnore [] s1 = ([s1], true) := by
    simp [insertOrIgnore]
  refine ⟨?_, by rw [h2], ?_, ?_⟩
  · have h1 : insertOrReplace [] r1 = [r1] := by
      simp [insertOrReplace]
    rw [h1]
    simp [insertOrReplace, hr]
  · rw [h2]
    simp [insertOrIgnore, hs]
  · rw [h2]
    simp [insertOrIgnore, hs]

/-- C7 witness: two conflicting concrete rows — same reference "2019/0045",
different descriptions — behave per policy in both variants. -/
theorem upsert_conflict_policy_witness :
    insertOrReplace (insertOrReplace []
      { council_reference := "2019/0045", address := "12 Smith St, Loxton",
        description := "Shed", info_url := DevelopmentApplicationMainUrl,
        date_scraped := "2019-04-03", date_received := "2019-04-03" })
      { council_reference := "2019/0045", address := "12 Smith St, Loxton",
        description := "Garage", info_url := DevelopmentApplicationMainUrl,
        date_scraped := "2019-05-01", date_received := "2019-04-03" } =
      [{ council_reference := "2019/0045", address := "12 Smith St, Loxton",
         description := "Garage", info_url := DevelopmentApplicationMainUrl,
         date_scraped := "2019-05-01", date_received := "2019-04-03" }] ∧
    (insertOrIgnore []
      { council_reference := "2019/0045", address := "12 Smith St, Loxton",
        description := "Shed", info_url := DevelopmentApplicationMainUrl,
        comment_url := "mailto:requests@waikerie.com",
        date_scraped := "2019-04-03", date_received := "2019-04-03" }).1 =
      [{ council_reference := "2019/0045", address := "12 Smith St, Loxton",
         description := "Shed", info_url := DevelopmentApplicationMainUrl,
         comment_url := "mailto:requests@waikerie.com",
         date_scraped := "2019-04-03", date_received := "2019-04-03" }] ∧
    (insertOrIgnore (insertOrIgnore []
      { council_reference := "2019/0045", address := "12 Smith St, Loxton",
        description := "Shed", info_url := DevelopmentApplicationMainUrl,
        comment_url := "mailto:requests@waikerie.com",
        date_scraped := "2019-04-03", date_received := "2019-04-03" }).1
      { council_reference := "2019/0045", address := "12 Smith St, Loxton",
        description := "Garage", info_url := DevelopmentApplicationMainUrl,
        comment_url := "mailto:requests@waikerie.com",
        date_scraped := "2019-05-01", date_received := "2019-04-03" }).1 =
      [{ council_reference := "2019/0045", address := "12 Smith St, Loxton",
         description := "Shed", info_url := DevelopmentApplicationMainUrl,
         comment_url := "mailto:requests@waikerie.com",
         date_scraped := "2019-04-03", date_received := "2019-04-03" }] ∧
    (insertOrIgnore (insertOrIgnore []
      { council_reference := "2019/0045", address := "12 Smith St, Loxton",
        description := "Shed", info_url := DevelopmentApplicationMainUrl,
        comment_url := "mailto:requests@waikerie.com",
        date_scraped := "2019-04-03", date_received := "2019-04-03" }).1
      { council_reference := "2019/0045", address := "12 Smith St, Loxton",
        description := "Garage", info_url := DevelopmentApplicationMainUrl,
        comment_url := "mailto:requests@waikerie.com",
        date_scraped := "2019-05-01", date_received := "2019-04-03" }).2 = false :=
  upsert_conflict_policy
    { council_reference := "2019/0045", address := "12 Smith St, Loxton",
      description := "Shed", info_url := DevelopmentApplicationMainUrl,
      date_scraped := "2019-04-03", date_received := "2019-04-03" }
    { council_reference := "2019/0045", address := "12 Smith St, Loxton",
      description := "Garage", info_url := DevelopmentApplicationMainUrl,
      date_scraped := "2019-05-01", date_received := "2019-04-03" }
    { council_reference := "2019/0045", address := "12 Smith St, Loxton",
      description := "Shed", info_url := DevelopmentApplicationMainUrl,
      comment_url := "mailto:requests@waikerie.com",
      date_scraped := "2019-04-03", date_received := "2019-04-03" }
    { council_reference := "2019/0045", address := "12 Smith St, Loxton",
      description := "Garage", info_url := DevelopmentApplicationMainUrl,
      comment_url := "mailto:requests@waikerie.com",
      date_scraped := "2019-05-01", date_received := "2019-04-03" }
    rfl rfl

/-- C10: for integer arguments minimum < maximum and any random source value
r in [0, 1), `getRandom` returns an integer in [minimum, maximum); hence the
pacing factor `getRandom(0, 5)` lies in 0..4 and
`randomMonth = getRandom(1, monthCount + 1)` lies in [1, monthCount]
whenever monthCount ≥ 1. -/
theorem getRandom_range (minimum maximum mc : ℤ) (r : ℚ)
    (hlt : minimum < maximum) (h0 : 0 ≤ r) (h1 : r < 1) (hmc : 1 ≤ mc) :
    (minimum ≤ getRandom r (minimum : ℚ) (maximum : ℚ) ∧
      getRandom r (minimum : ℚ) (maximum : ℚ) < maximum) ∧
    (0 ≤ getRandom r 0 5 ∧ getRandom r 0 5 < 5) ∧
    (1 ≤ randomMonth r mc ∧ randomMonth r mc ≤ mc) := by
  refine ⟨getRandom_int_bounds minimum maximum r hlt h0 h1, ?_, ?_⟩
  · have h05 := getRandom_int_bounds 0 5 r (by norm_num) h0 h1
    have e0 : ((0 : ℤ) : ℚ) = (0 : ℚ) := by norm_num
    have e5 : ((5 : ℤ) : ℚ) = (5 : ℚ) := by norm_num
    rw [e0, e5] at h05
    exact h05
  · have hbm := getRandom_int_bounds 1 (mc + 1) r (by omega) h0 h1
    have e1 : ((1 : ℤ) : ℚ) = (1 : ℚ) := by norm_num
    have emc : ((mc + 1 : ℤ) : ℚ) = (mc : ℚ) + 1 := by push_cast; ring
    rw [e1, emc] at hbm
    unfold randomMonth
    exact ⟨hbm.1, by omega⟩

/-- C10 witness: at r = 1/3, getRandom(2, 7) lies in [2, 7), getRandom(0, 5)
lies in [0, 5), and the drawn month for monthCount 86 lies in [1, 86]. -/
theorem getRandom_range_witness :
    ((2 : ℤ) ≤ getRandom (1/3) ((2 : ℤ) : ℚ) ((7 : ℤ) : ℚ) ∧
      getRandom (1/3) ((2 : ℤ) : ℚ) ((7 : ℤ) : ℚ) < 7) ∧
    (0 ≤ getRandom (1/3) 0 5 ∧ getRandom (1/3) 0 5 < 5) ∧
    (1 ≤ randomMonth (1/3) 86 ∧ randomMonth (1/3) 86 ≤ 86) :=
  getRandom_range 2 7 86 (1/3) (by norm_num) (by norm_num) (by norm_num) (by norm_num)
